import Mathlib

/-!
Verification development for the eBook-reader application's
reading-position resolution and progress-persistence subsystem.

The definitions below are shallow embeddings of the TypeScript source:

* `utils/bookStorage.ts` (library store: `updateReadingProgress`,
  `updateBookCategories`), embedded as pure functions over a list of
  `BookRecord`s, with the JavaScript `TypeError` thrown on a missing
  record modelled as `Except.error`;
* `components/reader/ReaderContent.tsx` and `app/reader/[id].tsx`
  (`handleLocationChange`, the progress reconciler), embedded as step
  functions on an explicit session state, with issued store writes
  accumulated in a `saves` list;
* `components/reader/ReaderContent.tsx` (`getCfiFromHref`,
  `navigateToTocSection`, the navigation resolver);
* the `ProgressDisplay` component of `app/reader/[id].tsx`.

JavaScript-specific behaviour is modelled explicitly: `Math.round` as
`jsRound` (floor of x + 1/2), string truthiness via `jsStr` (empty
string is falsy), `String.prototype.includes` via `hasSub`, and
`toLowerCase` via `lowerStr`.
-/

/-- Lowercase a character the way `String.prototype.toLowerCase` does for
ASCII letters (the only characters relevant to the front-matter markers). -/
def lowerChar (c : Char) : Char :=
  if 'A' ≤ c ∧ c ≤ 'Z' then Char.ofNat (c.toNat + 32) else c

/-- Lowercased character list of a string (model of `s.toLowerCase()`). -/
def lowerStr (s : String) : List Char := s.toList.map lowerChar

/-- Boolean list-prefix test (structural, kernel-reducible). -/
def listPrefix : List Char → List Char → Bool
  | [], _ => true
  | _ :: _, [] => false
  | a :: as, b :: bs => a == b && listPrefix as bs

/-- Boolean list-infix test: does `pat` occur contiguously in the list? -/
def listInfix (pat : List Char) : List Char → Bool
  | [] => listPrefix pat []
  | b :: bs => listPrefix pat (b :: bs) || listInfix pat bs

/-- Model of JavaScript `s.includes(pat)` on a character list `s`. -/
def hasSub (s : List Char) (pat : String) : Bool := listInfix pat.toList s

/-- JavaScript string truthiness: `undefined` and `""` are falsy. -/
def jsStr (o : Option String) : Option String :=
  match o with
  | some s => if s = "" then none else some s
  | none => none

/-- Model of JavaScript `Math.round` on an exact rational: floor of x + 1/2
(JavaScript rounds half-way cases toward positive infinity). -/
def jsRound (q : ℚ) : ℤ := ⌊q + 1 / 2⌋

/-- Pagination-relative display info carried by an engine location
(`end.displayed` in the snapshot). -/
structure Displayed where
  page : ℕ
  total : ℕ
  deriving DecidableEq, Repr

/-- One side (`start` or `end`) of an engine location snapshot.  Every field
is optional, exactly as in the engine's payload. -/
structure SubLocation where
  cfi : Option String
  percentage : Option ℚ
  index : Option ℕ
  location : Option ℕ
  href : Option String
  displayed : Option Displayed
  deriving Repr

/-- An engine location snapshot with optional `start` and `end` parts. -/
structure Location where
  startPart : Option SubLocation
  endPart : Option SubLocation
  deriving Repr

/-- Model of `location.end?.cfi`. -/
def endCfi (loc : Location) : Option String := loc.endPart.bind (·.cfi)

/-- Model of `location.start?.cfi`. -/
def startCfi (loc : Location) : Option String := loc.startPart.bind (·.cfi)

/-- Model of `location.end?.percentage`. -/
def endPercentage (loc : Location) : Option ℚ := loc.endPart.bind (·.percentage)

/-- Model of `location.end?.index`. -/
def endIndex (loc : Location) : Option ℕ := loc.endPart.bind (·.index)

/-- Model of `location.end?.location`. -/
def endLocation (loc : Location) : Option ℕ := loc.endPart.bind (·.location)

/-- Model of `location.end?.href`. -/
def endHref (loc : Location) : Option String := loc.endPart.bind (·.href)

/-- Model of `location.end?.displayed`. -/
def endDisplayed (loc : Location) : Option Displayed := loc.endPart.bind (·.displayed)

/-- Model of `const cfi = location.end?.cfi || location.start?.cfi` with
JavaScript truthiness (an empty string falls through and a final falsy
value is `none`). -/
def cfiOf (loc : Location) : Option String :=
  (jsStr (endCfi loc)).orElse fun _ => jsStr (startCfi loc)

/-- Model of the `isTOC` front-matter test of `handleLocationChange`:
`location.end?.href && (href.toLowerCase().includes("toc") ||
href.toLowerCase().includes("contents"))`. -/
def isTOC (loc : Location) : Bool :=
  match endHref loc with
  | some h => h ≠ "" && (hasSub (lowerStr h) "toc" || hasSub (lowerStr h) "contents")
  | none => false

/-- Final fallback branch of the progress calculation in
`handleLocationChange`: `location.end?.displayed?.page &&
location.end?.displayed?.total` (both truthy, i.e. nonzero), and the page
ratio is only used when `total > 4`; otherwise the progress stays `0`. -/
def displayedProgress (loc : Location) : ℤ :=
  match endDisplayed loc with
  | some d =>
    if d.page ≠ 0 ∧ d.total ≠ 0 then
      if 4 < d.total then jsRound ((d.page : ℚ) / (d.total : ℚ) * 100) else 0
    else 0
  | none => 0

/-- The progress calculation of `handleLocationChange` (identical in
`ReaderContent.tsx` and `app/reader/[id].tsx`): four sequential guards
choosing, in order, `end.percentage`, `end.index / total`,
`end.location / total`, and the displayed page ratio, each scaled to a
0–100 value via `Math.round`; `0` when no guard applies. -/
def progressPercent (loc : Location) (totalBookLocations : ℕ) : ℤ :=
  match endPercentage loc with
  | some p => jsRound (p * 100)
  | none =>
    match endIndex loc with
    | some i =>
      if 0 < totalBookLocations then
        jsRound ((i : ℚ) / (totalBookLocations : ℚ) * 100)
      else displayedProgress loc
    | none =>
      match endLocation loc with
      | some l =>
        if 0 < totalBookLocations then
          jsRound ((l : ℚ) / (totalBookLocations : ℚ) * 100)
        else displayedProgress loc
      | none => displayedProgress loc

/-- The spec's wording of the final precedence rule: the displayed page
ratio applies exactly when `displayed.total > 4` (no truthiness test on
`page`). -/
def specDisplayedC3 (loc : Location) : ℤ :=
  match endDisplayed loc with
  | some d => if 4 < d.total then jsRound ((d.page : ℚ) / (d.total : ℚ) * 100) else 0
  | none => 0

/-- Specification-side definition for claim C3, following the spec's own
wording of the precedence — (1) `end.percentage` × 100; (2) `end.index /
total` × 100 only when the total is known and positive; (3)
`end.location / total` × 100 against the same known total; (4)
`end.displayed.page / end.displayed.total` × 100 only when
`displayed.total > 4`; otherwise 0. -/
def specProgressC3 (loc : Location) (totalBookLocations : ℕ) : ℤ :=
  match endPercentage loc with
  | some p => jsRound (p * 100)
  | none =>
    match endIndex loc with
    | some i =>
      if 0 < totalBookLocations then
        jsRound ((i : ℚ) / (totalBookLocations : ℚ) * 100)
      else specDisplayedC3 loc
    | none =>
      match endLocation loc with
      | some l =>
        if 0 < totalBookLocations then
          jsRound ((l : ℚ) / (totalBookLocations : ℚ) * 100)
        else specDisplayedC3 loc
      | none => specDisplayedC3 loc

/-- A call issued to `updateReadingProgress` at the library-store boundary:
`(progressPercent, location.end?.index || 0, cfi)`. -/
structure SaveCall where
  progress : ℤ
  page : ℕ
  cfi : String
  deriving DecidableEq, Repr

/-- Per-session reconciler state of the reader screen: the refs and state
variables read and written by `handleLocationChange`
(`lastLocationRef`, `latestLocationRef`, `readingProgress`,
`progressUpdatedRef`, `savingInProgressRef`, `lastSavedProgressRef`),
plus the list of store writes issued so far. -/
structure ReaderState where
  lastLocation : String
  latestLocation : Option Location
  readingProgress : ℤ
  progressUpdated : Bool
  savingInProgress : Bool
  lastSavedProgress : ℤ
  saves : List SaveCall
  deriving Repr

/-- One run of `handleLocationChange` from `ReaderContent.tsx`
(lines 418–551), as a pure step: take the current session state and the
result of `getCurrentLocation()`, return the updated state.  The guards
appear in source order: missing location, missing CFI, duplicate
location, front matter, progress range check, zero-progress regression
guard, then acceptance and the `savingInProgress`-gated store write. -/
def handleLocationChange (s : ReaderState) (loc? : Option Location)
    (totalBookLocations : ℕ) : ReaderState :=
  match loc? with
  | none => s
  | some loc =>
    match cfiOf loc with
    | none => s
    | some cfi =>
      if s.lastLocation = cfi then s
      else
        let s1 := { s with lastLocation := cfi, latestLocation := some loc }
        if isTOC loc then s1
        else
          let p := progressPercent loc totalBookLocations
          if p < 0 ∨ 100 < p then s1
          else if p = 0 ∧ 0 < s1.readingProgress then s1
          else
            let s2 := { s1 with readingProgress := p, progressUpdated := true }
            if s2.savingInProgress then s2
            else
              { s2 with
                savingInProgress := true
                lastSavedProgress := p
                saves := s2.saves ++ [⟨p, (endIndex loc).getD 0, cfi⟩] }

/-- One run of `handleLocationChange` from `app/reader/[id].tsx`
(lines 764–878), which differs from the `ReaderContent.tsx` version in
that it stores `latestLocationRef` before any guard, has no
duplicate-location check, and adds the sub-percent save threshold
(`|progress - lastSaved| < 1` with `progressUpdatedRef` set). -/
def handleLocationChangeR (s : ReaderState) (loc? : Option Location)
    (totalBookLocations : ℕ) : ReaderState :=
  match loc? with
  | none => s
  | some loc =>
    let s0 := { s with latestLocation := some loc }
    match cfiOf loc with
    | none => s0
    | some cfi =>
      if isTOC loc then s0
      else
        let p := progressPercent loc totalBookLocations
        if p < 0 ∨ 100 < p then s0
        else if p = 0 ∧ 0 < s0.readingProgress then s0
        else if |p - s0.lastSavedProgress| < 1 ∧ s0.progressUpdated then s0
        else
          let s2 := { s0 with readingProgress := p, progressUpdated := true }
          if s2.savingInProgress then s2
          else
            { s2 with
              savingInProgress := true
              lastSavedProgress := p
              saves := s2.saves ++ [⟨p, (endIndex loc).getD 0, cfi⟩] }

/-- A persisted library entry (`BookMetadata` in `types/types.ts`), as
stored in the `bookLibrary` JSON blob.  Optional descriptive strings are
kept as plain strings (import always defaults them) and `lastRead` is
optional as in the source. -/
structure BookRecord where
  id : String
  title : String
  author : String
  publisher : String
  language : String
  description : String
  rights : String
  coverPath : String
  filePath : String
  fileSize : ℕ
  dateAdded : String
  lastRead : Option String
  readingProgress : ℤ
  categories : List String
  totalPages : ℕ
  currentPage : ℤ
  cfi : String
  deriving DecidableEq, Repr

/-- The field merge performed by `updateReadingProgress` when its page
guard passes: only `readingProgress`, `lastRead`, `currentPage` and `cfi`
are assigned; every other field of the record is untouched. -/
def mergePosition (b : BookRecord) (progress currentPage : ℤ)
    (cfi now : String) : BookRecord :=
  { b with
    readingProgress := progress
    lastRead := some now
    currentPage := currentPage
    cfi := cfi }

/-- Model of `updateReadingProgress` from `utils/bookStorage.ts` (the version
embedded in `README.md`, lines 224–243), over an existing `books` array:
find the record index by `id`; read `library.books[bookIndex].currentPage`
— which throws a `TypeError` (modelled as `Except.error`) when the index
is `-1` — and only when the stored `currentPage` is strictly below the
incoming one, assign the position fields and write the collection back.
`now` stands for `new Date().toISOString()`. -/
def updateReadingProgress (books : List BookRecord) (id : String)
    (progress currentPage : ℤ) (cfi now : String) :
    Except Unit (List BookRecord) :=
  match books.findIdx? (fun b => b.id == id) with
  | none => .error ()
  | some i =>
    match books[i]? with
    | none => .error ()
    | some b =>
      if b.currentPage < currentPage then
        .ok (books.set i (mergePosition b progress currentPage cfi now))
      else
        .ok books

/-- Model of `updateReadingProgress` lifted to the stored collection: when the
`bookLibrary` key is absent (`libraryJson` null) the call returns at once
without touching the store. -/
def updateReadingProgressStore (store : Option (List BookRecord))
    (id : String) (progress currentPage : ℤ) (cfi now : String) :
    Except Unit (Option (List BookRecord)) :=
  match store with
  | none => .ok none
  | some books => (updateReadingProgress books id progress currentPage cfi now).map some

/-- Model of `updateBookCategories` from `utils/bookStorage.ts`: find the record
by `id`; when present (`bookIndex !== -1`) replace its `categories` and
write the collection back, otherwise leave the collection alone. -/
def updateBookCategories (books : List BookRecord) (id : String)
    (categories : List String) : List BookRecord :=
  match books.findIdx? (fun b => b.id == id) with
  | none => books
  | some i =>
    match books[i]? with
    | none => books
    | some b => books.set i { b with categories := categories }

/-- The write phase of `updateReadingProgress` viewed as a
read-modify-write thread: given the collection snapshot it read, either
`some` new collection to `setItem`, or `none` when no write happens (the
page guard fails, or the record is missing and the call throws before
reaching `setItem`). -/
def updateReadingProgressWrite (id : String) (progress currentPage : ℤ)
    (cfi now : String) (books : List BookRecord) : Option (List BookRecord) :=
  match books.findIdx? (fun b => b.id == id) with
  | none => none
  | some i =>
    match books[i]? with
    | none => none
    | some b =>
      if b.currentPage < currentPage then
        some (books.set i (mergePosition b progress currentPage cfi now))
      else none

/-- The write phase of `updateBookCategories` viewed as a
read-modify-write thread. -/
def updateBookCategoriesWrite (id : String) (categories : List String)
    (books : List BookRecord) : Option (List BookRecord) :=
  match books.findIdx? (fun b => b.id == id) with
  | none => none
  | some i =>
    match books[i]? with
    | none => none
    | some b => some (books.set i { b with categories := categories })

/-- Interleaving state for two concurrent read-modify-write calls against
the shared `bookLibrary` blob: the current store contents, and for each
thread the snapshot captured by its `AsyncStorage.getItem` (if already
executed) and whether the thread has finished. -/
structure ConcState where
  store : List BookRecord
  aSnap : Option (List BookRecord)
  aDone : Bool
  bSnap : Option (List BookRecord)
  bDone : Bool
  deriving DecidableEq, Repr

/-- One atomic step of a read-modify-write thread: first a `getItem`
capturing the current store, then a `setItem` of the value computed from
the captured snapshot (or no write at all when the thread does not reach
`setItem`). -/
def threadStep (f : List BookRecord → Option (List BookRecord))
    (store : List BookRecord) (snap : Option (List BookRecord))
    (finished : Bool) : List BookRecord × Option (List BookRecord) × Bool :=
  if finished then (store, snap, true)
  else
    match snap with
    | none => (store, some store, false)
    | some snapshot =>
      match f snapshot with
      | some newBooks => (newBooks, snap, true)
      | none => (store, snap, true)

/-- Step of the two-thread interleaving: `true` schedules thread A,
`false` schedules thread B. -/
def concStep (fA fB : List BookRecord → Option (List BookRecord))
    (st : ConcState) (pick : Bool) : ConcState :=
  if pick then
    let next := threadStep fA st.store st.aSnap st.aDone
    { st with store := next.1, aSnap := next.2.1, aDone := next.2.2 }
  else
    let next := threadStep fB st.store st.bSnap st.bDone
    { st with store := next.1, bSnap := next.2.1, bDone := next.2.2 }

/-- Run two read-modify-write threads over an initial collection under an
explicit interleaving schedule. -/
def concRun (fA fB : List BookRecord → Option (List BookRecord))
    (init : List BookRecord) (sched : List Bool) : ConcState :=
  sched.foldl (concStep fA fB) ⟨init, none, false, none, false⟩

/-- A table-of-contents entry as handled by `navigateToTocSection`
(`SectionType`): `id`, `label` and `href` are strings (empty models a
missing/falsy value), `cfi` is optional, `subitems` are nested entries. -/
inductive TocSection where
  | mk (id : String) (label : String) (href : String) (cfi : Option String)
       (subitems : List TocSection)

/-- The `id` of a TOC entry. -/
def TocSection.id : TocSection → String
  | .mk i _ _ _ _ => i

/-- The `label` of a TOC entry. -/
def TocSection.label : TocSection → String
  | .mk _ l _ _ _ => l

/-- The `href` of a TOC entry. -/
def TocSection.href : TocSection → String
  | .mk _ _ h _ _ => h

/-- The `cfi` of a TOC entry. -/
def TocSection.cfi : TocSection → Option String
  | .mk _ _ _ c _ => c

/-- The `subitems` of a TOC entry. -/
def TocSection.subitems : TocSection → List TocSection
  | .mk _ _ _ _ s => s

/-- Model of `href.startsWith("/") ? href.substring(1) : href`, written on
the character list so that it is kernel-reducible. -/
def cleanHref (h : String) : String :=
  match h.data with
  | '/' :: rest => String.mk rest
  | _ => h

/-- Model of `getCfiFromHref` from `ReaderContent.tsx` (lines 92–137), with the
engine's rendition assumed available and its linear spine given as the
list of spine-item hrefs (`item.href || ""`): an href already containing
`epubcfi(` is returned as-is; otherwise the spine is searched for the
first item whose url equals the cleaned href or occurs as a substring of
it (`cleanHref.includes(itemUrl)`), and a start-of-spine-item CFI
`epubcfi(/6/(2i+2)!)` is synthesized from the match position. -/
def getCfiFromHref (spine : List String) (href : String) : Option String :=
  if hasSub href.toList "epubcfi(" then some href
  else
    match spine.findIdx? (fun itemUrl =>
        itemUrl == cleanHref href
          || (cleanHref href ≠ "" && hasSub (cleanHref href).toList itemUrl)) with
    | some i => some ("epubcfi(/6/" ++ toString (i * 2 + 2) ++ "!)")
    | none => none

/-- Model of `navigateToTocSection` from `ReaderContent.tsx` (lines 140–217),
returning the locator string handed to `goToLocation` (or `none` when no
call is made): (1) the section's own `cfi` when truthy; (2) a CFI
generated from its `href`; (3) the same two attempts on the first
subitem; (4) the raw cleaned `href`, else the raw cleaned `id`, as a
last-resort direct navigation. -/
def navigateToTocSection (spine : List String) (sec : TocSection) : Option String :=
  match jsStr sec.cfi with
  | some c => some c
  | none =>
    match (if sec.href ≠ "" then getCfiFromHref spine sec.href else none) with
    | some generated => some generated
    | none =>
      match sec.subitems with
      | firstSubitem :: _ =>
        match jsStr firstSubitem.cfi with
        | some c => some c
        | none =>
          match (if firstSubitem.href ≠ ""
                 then getCfiFromHref spine firstSubitem.href else none) with
          | some generated => some generated
          | none =>
            if sec.href ≠ "" then some (cleanHref sec.href)
            else if sec.id ≠ "" then some (cleanHref sec.id)
            else none
      | [] =>
        if sec.href ≠ "" then some (cleanHref sec.href)
        else if sec.id ≠ "" then some (cleanHref sec.id)
        else none

/-- Specification-side reading of claim C9 rule 1: the entry "carries a
direct locator" — its `cfi` field, or an `href` that is already in the
engine's locator grammar (contains `epubcfi(`) and is used as-is. -/
def directLocator (sec : TocSection) : Option String :=
  match jsStr sec.cfi with
  | some c => some c
  | none =>
    if sec.href ≠ "" ∧ hasSub sec.href.toList "epubcfi(" = true then some sec.href
    else none

/-- Specification-side reading of claim C9 rule 2 with SUBSTRING
containment: match the document reference in the spine by reference
equality or substring containment and synthesize the start-of-document
locator for the matched spine position. -/
def spineStartLocator (spine : List String) (href : String) : Option String :=
  if href = "" ∨ hasSub href.toList "epubcfi(" = true then none
  else
    match spine.findIdx? (fun itemUrl =>
        itemUrl == cleanHref href
          || (cleanHref href ≠ "" && hasSub (cleanHref href).toList itemUrl)) with
    | some i => some ("epubcfi(/6/" ++ toString (i * 2 + 2) ++ "!)")
    | none => none

/-- Boolean list-suffix test. -/
def listSuffix (pat s : List Char) : Bool := listPrefix pat.reverse s.reverse

/-- Specification-side reading of claim C9 rule 2 with SUFFIX containment,
exactly as the claim words it: the spine entry matches when it equals the
cleaned reference or occurs as a suffix of it. -/
def spineStartLocatorSuffix (spine : List String) (href : String) : Option String :=
  if href = "" ∨ hasSub href.toList "epubcfi(" = true then none
  else
    match spine.findIdx? (fun itemUrl =>
        itemUrl == cleanHref href
          || (cleanHref href ≠ "" && listSuffix itemUrl.toList (cleanHref href).toList)) with
    | some i => some ("epubcfi(/6/" ++ toString (i * 2 + 2) ++ "!)")
    | none => none

/-- Claim C9 rule 4: pass the raw document reference, or the fallback id,
through as a degraded direct jump. -/
def degradedJump (sec : TocSection) : Option String :=
  if sec.href ≠ "" then some (cleanHref sec.href)
  else if sec.id ≠ "" then some (cleanHref sec.id)
  else none

/-- The resolution order of claim C9, parametrized by the rule-2
synthesis function: (1) direct locator; (2) spine synthesis from the
document reference; (3) rules 1–2 on the first child; (4) degraded raw
jump. -/
def resolveSpec (synth : List String → String → Option String)
    (spine : List String) (sec : TocSection) : Option String :=
  match directLocator sec with
  | some c => some c
  | none =>
    match synth spine sec.href with
    | some generated => some generated
    | none =>
      match sec.subitems with
      | child :: _ =>
        match directLocator child with
        | some c => some c
        | none =>
          match synth spine child.href with
          | some generated => some generated
          | none => degradedJump sec
      | [] => degradedJump sec

/-- State of the `ProgressDisplay` component of `app/reader/[id].tsx`
(lines 78–96): the highest progress seen (`highestProgressRef`) and the
value currently rendered (`displayProgress`). -/
structure PDState where
  highestProgress : ℤ
  displayProgress : ℤ
  deriving DecidableEq, Repr

/-- Mount of `ProgressDisplay` with initial prop `progress`: both the ref
and the display state start at the prop value. -/
def progressDisplayInit (progress : ℤ) : PDState := ⟨progress, progress⟩

/-- The effect body of `ProgressDisplay` run for a new `progress` prop:
adopt it when it exceeds the highest seen; otherwise only replace a
displayed `0` by a positive value. -/
def progressDisplayStep (s : PDState) (progress : ℤ) : PDState :=
  if s.highestProgress < progress then ⟨progress, progress⟩
  else if 0 < progress ∧ s.displayProgress = 0 then ⟨s.highestProgress, progress⟩
  else s

theorem jsRound_zero : jsRound 0 = 0 := by norm_num [jsRound]

theorem displayedProgress_eq_spec (loc : Location) :
    displayedProgress loc = specDisplayedC3 loc := by
  unfold displayedProgress specDisplayedC3
  cases h : endDisplayed loc with
  | none => rfl
  | some d =>
    by_cases hp : d.page = 0
    · by_cases ht : 4 < d.total
      · simp [hp, ht, jsRound_zero]
      · simp [hp, ht]
    · by_cases ht0 : d.total = 0
      · simp [hp, ht0]
      · simp [hp, ht0]

/-- C3: for every location snapshot and every known total-location count,
the progress value computed by the observation handler
(`progressPercent`, shared verbatim by `ReaderContent.tsx` and
`app/reader/[id].tsx`) equals the value prescribed by the spec's
precedence rules (`specProgressC3`): (1) `end.percentage` × 100;
(2) `end.index / total` × 100 only when the total is known and positive;
(3) `end.location / total` × 100; (4) the displayed page ratio only when
`displayed.total > 4`; and 0 when no rule applies (the locator having
been recorded beforehand is shown in the C6/C7 theorems on the handler
state). -/
theorem progressPercent_follows_spec_precedence (loc : Location) (total : ℕ) :
    progressPercent loc total = specProgressC3 loc total := by
  unfold progressPercent specProgressC3
  rw [displayedProgress_eq_spec]

theorem progressDisplayStep_invariant (s : PDState) (p : ℤ)
    (h : s.displayProgress = s.highestProgress) :
    (progressDisplayStep s p).displayProgress
        = (progressDisplayStep s p).highestProgress
    ∧ (progressDisplayStep s p).highestProgress = max s.highestProgress p := by
  unfold progressDisplayStep
  by_cases h1 : s.highestProgress < p
  · rw [if_pos h1]
    exact ⟨rfl, (max_eq_right h1.le).symm⟩
  · by_cases h2 : 0 < p ∧ s.displayProgress = 0
    · exfalso; omega
    · rw [if_neg h1, if_neg h2]
      exact ⟨h, (max_eq_left (by omega)).symm⟩

theorem progressDisplay_foldl (ps : List ℤ) :
    ∀ s : PDState, s.displayProgress = s.highestProgress →
      (ps.foldl progressDisplayStep s).displayProgress
          = (ps.foldl progressDisplayStep s).highestProgress
      ∧ (ps.foldl progressDisplayStep s).highestProgress
          = ps.foldl max s.highestProgress := by
  induction ps with
  | nil => exact fun s h => ⟨h, rfl⟩
  | cons p ps ih =>
    intro s h
    simp only [List.foldl_cons]
    obtain ⟨h1, h2⟩ := progressDisplayStep_invariant s p h
    obtain ⟨h3, h4⟩ := ih _ h1
    exact ⟨h3, by rw [h4, h2]⟩

/-- C10: for every initial progress prop and every sequence of progress
inputs fed to `ProgressDisplay`, the displayed value equals the maximum
progress value seen so far (initial value included); in particular,
feeding one more input never decreases the displayed value, even when
the input signal regresses. -/
theorem progressDisplay_shows_running_maximum (p0 : ℤ) (ps : List ℤ) :
    (ps.foldl progressDisplayStep (progressDisplayInit p0)).displayProgress
        = ps.foldl max p0
    ∧ ∀ p : ℤ,
        (ps.foldl progressDisplayStep (progressDisplayInit p0)).displayProgress
          ≤ ((ps ++ [p]).foldl progressDisplayStep
              (progressDisplayInit p0)).displayProgress := by
  have base : ∀ qs : List ℤ,
      (qs.foldl progressDisplayStep (progressDisplayInit p0)).displayProgress
        = qs.foldl max p0 := by
    intro qs
    obtain ⟨h1, h2⟩ := progressDisplay_foldl qs (progressDisplayInit p0) rfl
    rw [h1, h2]; rfl
  refine ⟨base ps, fun p => ?_⟩
  rw [base ps, base (ps ++ [p]), List.foldl_append]
  exact le_max_left _ _

theorem hlc_of_lastLocation_eq (s : ReaderState) (loc : Location) (total : ℕ)
    (c : String) (hc : cfiOf loc = some c) (he : s.lastLocation = c) :
    handleLocationChange s (some loc) total = s := by
  simp [handleLocationChange, hc, he]

theorem hlc_lastLocation_updated (s : ReaderState) (loc : Location) (total : ℕ)
    (c : String) (hc : cfiOf loc = some c) (he : ¬ s.lastLocation = c) :
    (handleLocationChange s (some loc) total).lastLocation = c := by
  simp only [handleLocationChange, hc]
  rw [if_neg he]
  split
  · rfl
  split
  · rfl
  split
  · rfl
  split
  · rfl
  · rfl

theorem hlc_idem (s : ReaderState) (loc : Location) (total : ℕ) :
    handleLocationChange (handleLocationChange s (some loc) total) (some loc) total
      = handleLocationChange s (some loc) total := by
  cases hc : cfiOf loc with
  | none => simp [handleLocationChange, hc]
  | some c =>
    by_cases he : s.lastLocation = c
    · rw [hlc_of_lastLocation_eq s loc total c hc he,
        hlc_of_lastLocation_eq s loc total c hc he]
    · exact hlc_of_lastLocation_eq _ loc total c hc
        (hlc_lastLocation_updated s loc total c hc he)

theorem hlcR_idem (s : ReaderState) (loc : Location) (total : ℕ) :
    handleLocationChangeR (handleLocationChangeR s (some loc) total) (some loc) total
      = handleLocationChangeR s (some loc) total := by
  cases hc : cfiOf loc with
  | none => simp [handleLocationChangeR, hc]
  | some c =>
    simp only [handleLocationChangeR, hc]
    split_ifs <;> first | rfl | omega | tauto

theorem hlc_saves_le (s : ReaderState) (loc? : Option Location) (total : ℕ) :
    (handleLocationChange s loc? total).saves.length ≤ s.saves.length + 1 := by
  cases loc? with
  | none => simp [handleLocationChange]
  | some loc =>
    cases hc : cfiOf loc with
    | none => simp [handleLocationChange, hc]
    | some c =>
      simp only [handleLocationChange, hc]
      split_ifs <;> simp

theorem hlcR_saves_le (s : ReaderState) (loc? : Option Location) (total : ℕ) :
    (handleLocationChangeR s loc? total).saves.length ≤ s.saves.length + 1 := by
  cases loc? with
  | none => simp [handleLocationChangeR]
  | some loc =>
    cases hc : cfiOf loc with
    | none => simp [handleLocationChangeR, hc]
    | some c =>
      simp only [handleLocationChangeR, hc]
      split_ifs <;> simp

/-- C7: processing the same location observation (hence the same locator
string) twice in a row is idempotent for both reader screens: the second
observation leaves the session state — including the list of writes
issued to the library store — exactly as it was, so a pair of
consecutive identical observations contributes exactly the writes of the
first one alone (one write when the first observation persisted, and a
single observation issues at most one write). -/
theorem duplicate_observation_idempotent (s : ReaderState) (loc : Location)
    (total : ℕ) :
    handleLocationChange (handleLocationChange s (some loc) total) (some loc) total
      = handleLocationChange s (some loc) total
    ∧ handleLocationChangeR (handleLocationChangeR s (some loc) total) (some loc) total
      = handleLocationChangeR s (some loc) total
    ∧ (handleLocationChange s (some loc) total).saves.length ≤ s.saves.length + 1
    ∧ (handleLocationChangeR s (some loc) total).saves.length ≤ s.saves.length + 1 :=
  ⟨hlc_idem s loc total, hlcR_idem s loc total,
    hlc_saves_le s (some loc) total, hlcR_saves_le s (some loc) total⟩

/-- C6: an observation flagged as front matter (its end href contains a
`toc`/`contents` marker) never changes the session's accepted
`readingProgress` and never issues a store write, in both reader
screens; the previously accepted progress is retained. -/
theorem front_matter_never_updates (s : ReaderState) (loc : Location)
    (total : ℕ) (h : isTOC loc = true) :
    (handleLocationChange s (some loc) total).readingProgress = s.readingProgress
    ∧ (handleLocationChange s (some loc) total).saves = s.saves
    ∧ (handleLocationChangeR s (some loc) total).readingProgress = s.readingProgress
    ∧ (handleLocationChangeR s (some loc) total).saves = s.saves := by
  cases hc : cfiOf loc with
  | none => simp [handleLocationChange, handleLocationChangeR, hc]
  | some c =>
    simp only [handleLocationChange, handleLocationChangeR, hc]
    split_ifs <;> simp_all

/-- C5 (amended): the zero-progress regression guard holds in both reader
screens — an observation can never take the accepted progress from a
positive value back to zero, because a candidate of exactly 0 is
rejected while the accepted progress is positive and any other accepted
candidate is itself positive.  (Acceptance of smaller positive values is
possible; see the counterexample.) -/
theorem accepted_progress_stays_positive (s : ReaderState) (loc? : Option Location)
    (total : ℕ) (h : 0 < s.readingProgress) :
    0 < (handleLocationChange s loc? total).readingProgress
    ∧ 0 < (handleLocationChangeR s loc? total).readingProgress := by
  cases loc? with
  | none => exact ⟨h, h⟩
  | some loc =>
    cases hc : cfiOf loc with
    | none =>
      simp only [handleLocationChange, handleLocationChangeR, hc]
      exact ⟨h, h⟩
    | some c =>
      simp only [handleLocationChange, handleLocationChangeR, hc]
      split_ifs <;> simp_all <;> omega

/-- C4 (amended): for every snapshot with `end.percentage` defined, the
candidate progress equals `round(end.percentage * 100)` with NO clamping;
when that value exceeds 100 the observation is rejected by the range
check — the accepted progress and the issued writes are unchanged — so a
snapshot with `end.percentage > 1` is discarded rather than clamped. -/
theorem percentage_not_clamped_rejected (s : ReaderState) (loc : Location)
    (total : ℕ) (p : ℚ) (hp : endPercentage loc = some p) :
    progressPercent loc total = jsRound (p * 100)
    ∧ (100 < jsRound (p * 100) →
        (handleLocationChange s (some loc) total).readingProgress = s.readingProgress
        ∧ (handleLocationChange s (some loc) total).saves = s.saves) := by
  have h1 : progressPercent loc total = jsRound (p * 100) := by
    simp [progressPercent, hp]
  refine ⟨h1, fun hover => ?_⟩
  cases hc : cfiOf loc with
  | none => simp [handleLocationChange, hc]
  | some c =>
    simp only [handleLocationChange, hc]
    split_ifs <;> first | exact ⟨rfl, rfl⟩ | simp_all

/-- Snapshot whose `end.percentage` is 2 (i.e. 200%), with a CFI. -/
def locOverflow : Location :=
  { startPart := none
    endPart := some
      { cfi := some "x", percentage := some 2, index := none
        location := none, href := none, displayed := none } }

/-- Session state with accepted progress 50 and no save in flight. -/
def stateAt50 : ReaderState :=
  { lastLocation := "", latestLocation := none, readingProgress := 50
    progressUpdated := true, savingInProgress := false
    lastSavedProgress := 50, saves := [] }

theorem percentage_not_clamped_witness :
    progressPercent locOverflow 0 = jsRound (2 * 100)
    ∧ (100 < jsRound (2 * 100) →
        (handleLocationChange stateAt50 (some locOverflow) 0).readingProgress
            = stateAt50.readingProgress
        ∧ (handleLocationChange stateAt50 (some locOverflow) 0).saves
            = stateAt50.saves) :=
  percentage_not_clamped_rejected stateAt50 locOverflow 0 2 rfl

theorem percentage_clamp_counterexample :
    progressPercent locOverflow 0 = 200
    ∧ (handleLocationChange stateAt50 (some locOverflow) 0).readingProgress = 50
    ∧ (50 : ℤ) ≠ 100 := by
  have hp : progressPercent locOverflow 0 = 200 := by
    rw [show progressPercent locOverflow 0 = jsRound ((2 : ℚ) * 100) from rfl]
    norm_num [jsRound]
  have hstep : handleLocationChange stateAt50 (some locOverflow) 0
      = { stateAt50 with lastLocation := "x", latestLocation := some locOverflow } := by
    simp only [handleLocationChange, show cfiOf locOverflow = some "x" from rfl]
    rw [if_neg (show ¬ (stateAt50.lastLocation = "x") by decide)]
    rw [if_neg (show ¬ (isTOC locOverflow = true) by decide)]
    rw [hp]
    norm_num
  exact ⟨hp, by rw [hstep]; rfl, by decide⟩

/-- Snapshot reporting 30% (`end.percentage` = 0.3) at a fresh CFI. -/
def locAt30 : Location :=
  { startPart := none
    endPart := some
      { cfi := some "c2", percentage := some ((3 : ℚ) / 10), index := none
        location := none, href := none, displayed := none } }

/-- Session state with accepted progress 80 and no save in flight. -/
def stateAt80 : ReaderState :=
  { lastLocation := "", latestLocation := none, readingProgress := 80
    progressUpdated := true, savingInProgress := false
    lastSavedProgress := 80, saves := [] }

theorem progress_regression_counterexample :
    (handleLocationChange stateAt80 (some locAt30) 0).readingProgress = 30
    ∧ stateAt80.readingProgress = 80
    ∧ (handleLocationChange stateAt80 (some locAt30) 0).saves.length = 1
    ∧ (30 : ℤ) < 80 := by
  have hp : progressPercent locAt30 0 = 30 := by
    rw [show progressPercent locAt30 0 = jsRound ((3 : ℚ) / 10 * 100) from rfl]
    norm_num [jsRound]
  have hstep : handleLocationChange stateAt80 (some locAt30) 0
      = { lastLocation := "c2", latestLocation := some locAt30
          readingProgress := 30, progressUpdated := true
          savingInProgress := true, lastSavedProgress := 30
          saves := [⟨30, 0, "c2"⟩] } := by
    simp only [handleLocationChange, show cfiOf locAt30 = some "c2" from rfl]
    rw [if_neg (show ¬ (stateAt80.lastLocation = "c2") by decide)]
    rw [if_neg (show ¬ (isTOC locAt30 = true) by decide)]
    rw [hp]
    norm_num
    rfl
  exact ⟨by rw [hstep], rfl, by rw [hstep]; rfl, by decide⟩

theorem progress_positive_witness :
    0 < (handleLocationChange stateAt80 (some locAt30) 0).readingProgress
    ∧ 0 < (handleLocationChangeR stateAt80 (some locAt30) 0).readingProgress :=
  accepted_progress_stays_positive stateAt80 (some locAt30) 0 (by decide)

/-- Snapshot sitting on the table-of-contents page (`end.href` contains
`toc`). -/
def locOnTOC : Location :=
  { startPart := none
    endPart := some
      { cfi := some "c7", percentage := some ((1 : ℚ) / 2), index := none
        location := none, href := some "OEBPS/toc.xhtml", displayed := none } }

theorem front_matter_witness :
    (handleLocationChange stateAt50 (some locOnTOC) 9).readingProgress
        = stateAt50.readingProgress
    ∧ (handleLocationChange stateAt50 (some locOnTOC) 9).saves = stateAt50.saves
    ∧ (handleLocationChangeR stateAt50 (some locOnTOC) 9).readingProgress
        = stateAt50.readingProgress
    ∧ (handleLocationChangeR stateAt50 (some locOnTOC) 9).saves = stateAt50.saves :=
  front_matter_never_updates stateAt50 locOnTOC 9 (by decide)

/-- C1 (amended): when a record with the given id exists in the stored
collection AND its stored `currentPage` is strictly below the incoming
page ordinal, `updateReadingProgress` succeeds and replaces exactly the
position fields (`readingProgress`, `currentPage`, `cfi`) and the
`lastRead` timestamp of that record, leaving every other field of the
record and every other record untouched; when the stored `currentPage`
is not below the incoming one, the call succeeds but leaves the
collection entirely unchanged. -/
theorem upsertPosition_merges_position_fields (books : List BookRecord)
    (id : String) (i : ℕ) (b : BookRecord) (progress currentPage : ℤ)
    (cfi now : String)
    (hfind : books.findIdx? (fun x => x.id == id) = some i)
    (hget : books[i]? = some b) :
    (b.currentPage < currentPage →
      updateReadingProgress books id progress currentPage cfi now
          = .ok (books.set i (mergePosition b progress currentPage cfi now))
      ∧ (mergePosition b progress currentPage cfi now).readingProgress = progress
      ∧ (mergePosition b progress currentPage cfi now).currentPage = currentPage
      ∧ (mergePosition b progress currentPage cfi now).cfi = cfi
      ∧ (mergePosition b progress currentPage cfi now).lastRead = some now
      ∧ (mergePosition b progress currentPage cfi now).id = b.id
      ∧ (mergePosition b progress currentPage cfi now).title = b.title
      ∧ (mergePosition b progress currentPage cfi now).author = b.author
      ∧ (mergePosition b progress currentPage cfi now).publisher = b.publisher
      ∧ (mergePosition b progress currentPage cfi now).language = b.language
      ∧ (mergePosition b progress currentPage cfi now).description = b.description
      ∧ (mergePosition b progress currentPage cfi now).rights = b.rights
      ∧ (mergePosition b progress currentPage cfi now).coverPath = b.coverPath
      ∧ (mergePosition b progress currentPage cfi now).filePath = b.filePath
      ∧ (mergePosition b progress currentPage cfi now).fileSize = b.fileSize
      ∧ (mergePosition b progress currentPage cfi now).dateAdded = b.dateAdded
      ∧ (mergePosition b progress currentPage cfi now).categories = b.categories
      ∧ (mergePosition b progress currentPage cfi now).totalPages = b.totalPages
      ∧ ∀ j, j ≠ i →
          (books.set i (mergePosition b progress currentPage cfi now))[j]?
            = books[j]?)
    ∧ (¬ b.currentPage < currentPage →
        updateReadingProgress books id progress currentPage cfi now = .ok books) := by
  constructor
  · intro hpage
    refine ⟨?_, rfl, rfl, rfl, rfl, rfl, rfl, rfl, rfl, rfl, rfl, rfl, rfl, rfl,
      rfl, rfl, rfl, rfl, ?_⟩
    · simp only [updateReadingProgress, hfind, hget]
      rw [if_pos hpage]
    · intro j hj
      rw [List.getElem?_set_ne (fun h => hj h.symm)]
  · intro hpage
    simp only [updateReadingProgress, hfind, hget]
    rw [if_neg hpage]

/-- A concrete library record. -/
def sampleBook : BookRecord :=
  { id := "b1", title := "T", author := "A", publisher := "P", language := "en"
    description := "D", rights := "R", coverPath := "cov", filePath := "fp"
    fileSize := 10, dateAdded := "2024-01-01", lastRead := none
    readingProgress := 10, categories := ["old"], totalPages := 100
    currentPage := 1, cfi := "c0" }

theorem upsertPosition_merge_witness :
    sampleBook.currentPage < 5
    ∧ updateReadingProgress [sampleBook] "b1" 42 5 "c5" "t1"
        = .ok ([sampleBook].set 0 (mergePosition sampleBook 42 5 "c5" "t1"))
    ∧ (mergePosition sampleBook 42 5 "c5" "t1").readingProgress = 42
    ∧ (mergePosition sampleBook 42 5 "c5" "t1").currentPage = 5
    ∧ (mergePosition sampleBook 42 5 "c5" "t1").cfi = "c5"
    ∧ (mergePosition sampleBook 42 5 "c5" "t1").lastRead = some "t1"
    ∧ (mergePosition sampleBook 42 5 "c5" "t1").categories = sampleBook.categories := by
  have h := (upsertPosition_merges_position_fields [sampleBook] "b1" 0 sampleBook
    42 5 "c5" "t1" rfl rfl).1 (by decide)
  exact ⟨by decide, h.1, h.2.1, h.2.2.1, h.2.2.2.1, h.2.2.2.2.1,
    h.2.2.2.2.2.2.2.2.2.2.2.2.2.2.2.2.1⟩

/-- A library whose only record is already at page 5. -/
def staleBooks : List BookRecord := [{ sampleBook with currentPage := 5 }]

theorem upsertPosition_stale_page_counterexample :
    updateReadingProgress staleBooks "b1" 99 3 "c9" "t9" = .ok staleBooks
    ∧ (staleBooks.map (·.readingProgress)) = [10]
    ∧ (staleBooks.map (·.cfi)) = ["c0"]
    ∧ (10 : ℤ) ≠ 99 := by
  refine ⟨rfl, rfl, rfl, by decide⟩

/-- C2: calling `updateReadingProgress` against a collection that does not
exist returns normally and leaves the store unchanged, but calling it
with an id that has no record in an existing collection throws (the
`library.books[-1].currentPage` access raises a `TypeError`), so the
promise rejects instead of returning normally. -/
theorem upsertPosition_missing_record_throws :
    updateReadingProgressStore none "b2" 50 3 "c" "t" = .ok none
    ∧ updateReadingProgressStore (some [sampleBook]) "b2" 50 3 "c" "t" = .error () := by
  exact ⟨rfl, rfl⟩

theorem findIdx?_set_of_found {α : Type} (l : List α) (p : α → Bool) (i : ℕ)
    (x : α) (h : l.findIdx? p = some i) (hx : p x = true) :
    (l.set i x).findIdx? p = some i := by
  rw [List.findIdx?_eq_some_iff_getElem] at h ⊢
  obtain ⟨hlen, hpi, hprev⟩ := h
  refine ⟨by simpa using hlen, ?_, ?_⟩
  · simpa [List.getElem_set_self] using hx
  · intro j hj
    rw [List.getElem_set_ne (by omega)]
    exact hprev j hj

/-- C8 (amended): when the categories update completes before the position
update begins (schedule A-read, A-write, B-read, B-write), the final
stored record carries both the new categories and the new position
fields, neither update clobbering the other; concurrent interleavings
are NOT serialized by the store — see the lost-update counterexample. -/
theorem sequential_updates_merge_disjoint_fields (books : List BookRecord)
    (id : String) (i : ℕ) (b : BookRecord) (cats : List String)
    (progress currentPage : ℤ) (cfi now : String)
    (hfind : books.findIdx? (fun x => x.id == id) = some i)
    (hget : books[i]? = some b)
    (hpage : b.currentPage < currentPage) :
    (concRun (updateBookCategoriesWrite id cats)
        (updateReadingProgressWrite id progress currentPage cfi now) books
        [true, true, false, false]).store
      = books.set i
          (mergePosition { b with categories := cats } progress currentPage cfi now)
    ∧ (mergePosition { b with categories := cats } progress currentPage cfi now).categories
        = cats
    ∧ (mergePosition { b with categories := cats } progress currentPage cfi now).readingProgress
        = progress
    ∧ (mergePosition { b with categories := cats } progress currentPage cfi now).currentPage
        = currentPage
    ∧ (mergePosition { b with categories := cats } progress currentPage cfi now).cfi
        = cfi
    ∧ (mergePosition { b with categories := cats } progress currentPage cfi now).lastRead
        = some now
    ∧ (mergePosition { b with categories := cats } progress currentPage cfi now).title
        = b.title := by
  have hlen : i < books.length := by
    obtain ⟨hl, -, -⟩ := List.findIdx?_eq_some_iff_getElem.1 hfind
    exact hl
  have hbi : books[i] = b := by
    have h2 := List.getElem?_eq_getElem hlen
    rw [hget] at h2
    exact Option.some.inj h2.symm
  have hpb : ({ b with categories := cats } : BookRecord).id == id := by
    obtain ⟨hl, hpi, -⟩ := List.findIdx?_eq_some_iff_getElem.1 hfind
    rw [hbi] at hpi
    simpa using hpi
  have hfA : updateBookCategoriesWrite id cats books
      = some (books.set i { b with categories := cats }) := by
    simp only [updateBookCategoriesWrite, hfind, hget]
  have hfind1 : (books.set i { b with categories := cats }).findIdx?
      (fun x => x.id == id) = some i :=
    findIdx?_set_of_found books _ i _ hfind hpb
  have hget1 : (books.set i { b with categories := cats })[i]?
      = some { b with categories := cats } := by
    rw [List.getElem?_set_self hlen]
  have hfB : updateReadingProgressWrite id progress currentPage cfi now
        (books.set i { b with categories := cats })
      = some ((books.set i { b with categories := cats }).set i
          (mergePosition { b with categories := cats } progress currentPage cfi now)) := by
    simp only [updateReadingProgressWrite, hfind1, hget1]
    rw [if_pos hpage]
  refine ⟨?_, rfl, rfl, rfl, rfl, rfl, rfl⟩
  simp only [concRun, List.foldl_cons, List.foldl_nil]
  simp [concStep, threadStep, hfA, hfB, List.set_set]

theorem sequential_updates_witness :
    (concRun (updateBookCategoriesWrite "b1" ["new"])
        (updateReadingProgressWrite "b1" 42 5 "c5" "t1") [sampleBook]
        [true, true, false, false]).store
      = [sampleBook].set 0
          (mergePosition { sampleBook with categories := ["new"] } 42 5 "c5" "t1")
    ∧ (mergePosition { sampleBook with categories := ["new"] } 42 5 "c5" "t1").categories
        = ["new"]
    ∧ (mergePosition { sampleBook with categories := ["new"] } 42 5 "c5" "t1").readingProgress
        = 42 :=
  have h := sequential_updates_merge_disjoint_fields [sampleBook] "b1" 0 sampleBook
    ["new"] 42 5 "c5" "t1" rfl rfl (by decide)
  ⟨h.1, h.2.1, h.2.2.1⟩

theorem lost_update_counterexample :
    (concRun (updateBookCategoriesWrite "b1" ["new"])
        (updateReadingProgressWrite "b1" 42 5 "c5" "t1") [sampleBook]
        [true, false, true, false]).aDone = true
    ∧ (concRun (updateBookCategoriesWrite "b1" ["new"])
        (updateReadingProgressWrite "b1" 42 5 "c5" "t1") [sampleBook]
        [true, false, true, false]).bDone = true
    ∧ (concRun (updateBookCategoriesWrite "b1" ["new"])
        (updateReadingProgressWrite "b1" 42 5 "c5" "t1") [sampleBook]
        [true, false, true, false]).store.map (·.readingProgress) = [42]
    ∧ (concRun (updateBookCategoriesWrite "b1" ["new"])
        (updateReadingProgressWrite "b1" 42 5 "c5" "t1") [sampleBook]
        [true, false, true, false]).store.map (·.categories) = [["old"]]
    ∧ [["old"]] ≠ [[("new" : String)]] := by
  refine ⟨rfl, rfl, rfl, rfl, by decide⟩

theorem getCfiFromHref_of_cfi (spine : List String) (href : String)
    (hsub : hasSub href.toList "epubcfi(" = true) :
    getCfiFromHref spine href = some href := by
  unfold getCfiFromHref
  rw [if_pos hsub]

theorem getCfiFromHref_eq_spineStartLocator (spine : List String) (href : String)
    (hh : ¬ href = "") (hsub : ¬ hasSub href.toList "epubcfi(" = true) :
    getCfiFromHref spine href = spineStartLocator spine href := by
  unfold getCfiFromHref spineStartLocator
  rw [if_neg hsub, if_neg (fun hor => hor.elim hh hsub)]

theorem spineStartLocator_of_cfi (spine : List String) (href : String)
    (hsub : hasSub href.toList "epubcfi(" = true) :
    spineStartLocator spine href = none := by
  unfold spineStartLocator
  rw [if_pos (Or.inr hsub)]

theorem spineStartLocator_empty (spine : List String) :
    spineStartLocator spine "" = none := by
  unfold spineStartLocator
  rw [if_pos (Or.inl rfl)]

/-- C9 (amended): for every spine and every table-of-contents entry,
`navigateToTocSection` resolves the jump target exactly per the claimed
order — (1) a direct locator carried by the entry (its `cfi`, or an
`href` already in locator syntax) is used as-is; (2) otherwise a
document reference matched in the spine by reference equality or
SUBSTRING containment (`cleanHref.includes(itemUrl)`, not suffix
containment) at position `i` yields the synthesized start-of-document
locator; (3) otherwise rules 1–2 are applied to the first child;
(4) otherwise the raw reference or fallback id is passed through as a
degraded jump. -/
theorem navigateToTocSection_follows_spec (spine : List String) (sec : TocSection) :
    navigateToTocSection spine sec = resolveSpec spineStartLocator spine sec := by
  cases sec with
  | mk sid slabel shref scfi ssubs =>
    simp only [navigateToTocSection, resolveSpec, directLocator, degradedJump,
      TocSection.cfi, TocSection.href, TocSection.id, TocSection.subitems]
    cases hcfi : jsStr scfi with
    | some c => rfl
    | none =>
      by_cases hh : shref = ""
      · subst hh
        cases ssubs with
        | nil => rfl
        | cons child rest =>
          cases child with
          | mk cid clabel chref ccfi csubs =>
            simp only [TocSection.cfi, TocSection.href]
            cases hccfi : jsStr ccfi with
            | some c2 => rfl
            | none =>
              by_cases hch : chref = ""
              · subst hch; rfl
              · by_cases hcsub : hasSub chref.toList "epubcfi(" = true
                · have hcsub2 : hasSub chref.data "epubcfi(" = true := hcsub
                  simp [hch, hcsub, hcsub2, spineStartLocator_empty,
                    getCfiFromHref_of_cfi spine chref hcsub]
                · simp only [hch, hcsub,
                    getCfiFromHref_eq_spineStartLocator spine chref hch hcsub]
                  simp [hch, hcsub, spineStartLocator_empty]
      · by_cases hsub : hasSub shref.toList "epubcfi(" = true
        · have hsub2 : hasSub shref.data "epubcfi(" = true := hsub
          simp [hh, hsub, hsub2, getCfiFromHref_of_cfi spine shref hsub]
        · simp only [getCfiFromHref_eq_spineStartLocator spine shref hh hsub]
          have hif : (if shref ≠ "" then spineStartLocator spine shref else none)
              = spineStartLocator spine shref := if_pos hh
          have hd : (if shref ≠ "" ∧ hasSub shref.toList "epubcfi(" = true
              then some shref else none) = none := if_neg (fun hand => hsub hand.2)
          rw [hif, hd]
          cases hsl : spineStartLocator spine shref with
          | some g => rfl
          | none =>
            cases ssubs with
            | nil => rfl
            | cons child rest =>
              cases child with
              | mk cid clabel chref ccfi csubs =>
                simp only [TocSection.cfi, TocSection.href]
                cases hccfi : jsStr ccfi with
                | some c2 => rfl
                | none =>
                  by_cases hch : chref = ""
                  · subst hch; rfl
                  · by_cases hcsub : hasSub chref.toList "epubcfi(" = true
                    · have hcsub2 : hasSub chref.data "epubcfi(" = true := hcsub
                      simp [hch, hcsub, hcsub2, spineStartLocator_empty,
                        getCfiFromHref_of_cfi spine chref hcsub]
                    · simp only [hch, hcsub,
                        getCfiFromHref_eq_spineStartLocator spine chref hch hcsub]
                      simp [hch, hcsub, spineStartLocator_empty]

theorem nav_resolver_suffix_counterexample :
    navigateToTocSection ["ch1.xhtml"]
        (TocSection.mk "" "Chapter 1.2" "ch1.xhtml#s2" none [])
      = some "epubcfi(/6/2!)"
    ∧ resolveSpec spineStartLocatorSuffix ["ch1.xhtml"]
        (TocSection.mk "" "Chapter 1.2" "ch1.xhtml#s2" none [])
      = some "ch1.xhtml#s2"
    ∧ navigateToTocSection ["ch1.xhtml"]
        (TocSection.mk "" "Chapter 1.2" "ch1.xhtml#s2" none [])
      ≠ resolveSpec spineStartLocatorSuffix ["ch1.xhtml"]
        (TocSection.mk "" "Chapter 1.2" "ch1.xhtml#s2" none []) := by
  refine ⟨rfl, rfl, by decide⟩
